import Mathlib

/-!
Verification development for the EMORECO audio-analysis backend.

The repository contains several near-identical Express route handlers that
relay an uploaded audio clip to a transcription service (upload, submit,
poll), optionally enrich the transcript via further providers, and emit a
single aggregated JSON response.  We shallowly embed the three source
variants:

* variant A: src/api/audio-analysis.js (silent fallback to simulated data),
* variant C: the second handler in src/unnamed/part_000
  (Promise.all of AssemblyAI + Hugging Face, then Perplexity),
* variant D: src/unnamed/part_001 (sequential AssemblyAI, Hugging Face,
  IBM Watson).

Network effects are modelled as oracles supplied in an environment record;
each handler returns the ordered list of external calls it performs
together with the response it emits.  JavaScript truthiness, the
`x || fallback` idiom, `String.prototype.split(/\s+/)` and `Math.round`
are embedded explicitly.  Numbers are modelled as rationals.
-/

deriving instance DecidableEq for Except

attribute [local semireducible] Rat.mul Rat.inv Rat.add Rat.sub Rat.ofScientific

/-- JavaScript `Math.round`: round half toward positive infinity. -/
def jsRound (x : ℚ) : ℤ := Int.floor (x + 1/2)

/-- JavaScript `s || d` for an optional string: `undefined` and the empty
string are falsy. -/
def jsOrS (o : Option String) (d : String) : String :=
  match o with
  | none => d
  | some s => if s = "" then d else s

/-- JavaScript `a || b` where both operands are optional strings
(used for `assemblyResult.text || assemblyResult.transcript`). -/
def jsOrOptS (a b : Option String) : Option String :=
  match a with
  | none => b
  | some s => if s = "" then b else s

/-- JavaScript `n || d` for an optional number: `undefined` and `0` are
falsy. -/
def jsOrQ (o : Option ℚ) (d : ℚ) : ℚ :=
  match o with
  | none => d
  | some v => if v = 0 then d else v

/-- One step of JavaScript `text.split(/\s+/)` on a character list.
The second argument is `some acc` while a token is being accumulated and
`none` while a whitespace run is being skipped.  Splitting on a regex
match produces an empty token when the match touches the start or the end
of the string, and `"".split(/\s+/)` is `[""]`. -/
def splitWsGo : List Char → Option (List Char) → List (List Char)
  | [], some acc => [acc.reverse]
  | [], none => [[]]
  | c :: cs, some acc =>
    if c.isWhitespace then acc.reverse :: splitWsGo cs none
    else splitWsGo cs (some (c :: acc))
  | c :: cs, none =>
    if c.isWhitespace then splitWsGo cs none
    else splitWsGo cs (some [c])

/-- JavaScript `s.split(/\s+/)`. -/
def jsSplitWs (s : String) : List String :=
  (splitWsGo s.data (some [])).map String.mk

/-- `s.split(/\s+/).length`, the token count used by `calculateWPM`. -/
def jsSplitLen (s : String) : ℕ := (splitWsGo s.data (some [])).length

/-- Number of maximal non-whitespace runs; the boolean records whether the
previous character belonged to a word. -/
def countWords : List Char → Bool → ℕ
  | [], _ => 0
  | c :: cs, inWord =>
    if c.isWhitespace then countWords cs false
    else (if inWord then 0 else 1) + countWords cs true

/-- Modelled from the spec: "Word count = split transcript on runs of
whitespace, count non-empty tokens." -/
def specWordCount (s : String) : ℕ := countWords s.data false

/-- Modelled from the spec: "round(wordCount(transcript) /
(audioDurationSeconds/60)), defined as 0 when duration is zero or
absent." -/
def specWordsPerMinute (s : String) (d : ℚ) : ℤ :=
  if d = 0 then 0 else jsRound ((specWordCount s : ℚ) / (d / 60))

/-- `calculateWPM(text, audioDuration)` from the source.  The guard
`!audioDuration || audioDuration === 0` returns 0 before `text` is
touched; afterwards `text.split` on an undefined `text` throws a
`TypeError`, which we surface in the `Except` error component. -/
def calculateWPM (text : Option String) (audioDuration : Option ℚ) :
    Except String ℤ :=
  match audioDuration with
  | none => Except.ok 0
  | some d =>
    if d = 0 then Except.ok 0
    else
      match text with
      | none => Except.error "TypeError: cannot read split of undefined"
      | some t => Except.ok (jsRound ((jsSplitLen t : ℚ) / (d / 60)))

/-- 1 when the JS split emits an extra empty token at the front
(text starts with whitespace). -/
def leadT : List Char → ℕ
  | [] => 0
  | c :: _ => if c.isWhitespace then 1 else 0

/-- 1 when the JS split emits an extra empty token at the back
(text ends with whitespace). -/
def trailT (cs : List Char) : ℕ :=
  match cs.getLast? with
  | none => 0
  | some c => if c.isWhitespace then 1 else 0

/-- 1 for the empty string, whose JS split is the single empty token. -/
def emptyT : List Char → ℕ
  | [] => 1
  | _ => 0

example : jsSplitLen "one two three four five six" = 6 := by decide
example : jsSplitLen " hello" = 2 := by decide
example : jsSplitLen "" = 1 := by decide
example : calculateWPM (some "one two three four five six") (some 30) = Except.ok 12 := by decide
example : calculateWPM (some "hello") (some 0) = Except.ok 0 := by decide
example : specWordsPerMinute " hello" 60 = 1 := by decide
example : calculateWPM (some " hello") (some 60) = Except.ok 2 := by decide

/-- A transcription job result as returned by the job-status endpoint, and
also the shape of the simulated fallback object.  A JS object simply lacks
the fields that are not set, so every field is optional. -/
structure AssemblyData where
  status : Option String := none
  text : Option String := none
  transcript : Option String := none
  confidence : Option ℚ := none
  audio_duration : Option ℚ := none
  error : Option String := none
  sentiment_analysis_results : Option String := none
deriving DecidableEq

/-- One entry of an emotion-classification result: `{label, score}`. -/
structure Emotion where
  label : String
  score : ℚ
deriving DecidableEq

/-- One section of the simulated truth-analysis report. -/
structure ReportSection where
  title : String
  content : String
deriving DecidableEq

/-- The simulated truth-analysis report returned by
`simulateTruthAnalysisReport`. -/
structure TruthReport where
  truthScore : ℕ
  confidence : ℕ
  summary : String
  detailedAnalysis : List ReportSection
deriving DecidableEq

/-- External calls a handler can perform, in the order they are issued. -/
inductive Call where
  | aaiUpload
  | aaiSubmit
  | aaiPoll (i : ℕ)
  | hugging
  | perplexity
  | watson
deriving DecidableEq

/-- Failure modes of `processWithAssemblyAI` (all are thrown `Error`s in
the source; the constructors classify the throw site). -/
inductive TranscriptionError where
  | upload (msg : String)
  | submission (msg : String)
  | remoteProcessing (msg : String)
  | pollTimeout
  | undefinedResult
deriving DecidableEq

/-- The `error.message` the catch handlers observe. -/
def TranscriptionError.message : TranscriptionError → String
  | .upload m => m
  | .submission m => m
  | .remoteProcessing m => m
  | .pollTimeout => "Processing timeout - audio too long or server busy"
  | .undefinedResult => "Cannot read properties of undefined"

/-- `result.status === 'completed' || result.status === 'error'`. -/
def isTerminal (s : Option String) : Bool :=
  s == some "completed" || s == some "error"

/-- `const maxAttempts = 30`. -/
def maxAttempts : ℕ := 30

/-- `setTimeout(resolve, 3000)`: the fixed sleep before every poll. -/
def pollIntervalMs : ℕ := 3000

/-- The polling `while` loop.  The source runs
`while (attempts < maxAttempts)`, polls, breaks on a terminal status and
otherwise increments `attempts`; we carry `fuel = maxAttempts - attempts`
as the structural recursion measure, so the loop guard `attempts <
maxAttempts` is exactly `fuel > 0`.  Arguments: remaining fuel, current
`attempts`, index of the next poll, and the last polled result (the JS
variable `result`, `undefined` before the first iteration).  Returns the
final `attempts`, the number of polls performed, and the final `result`. -/
def pollWhile (f : ℕ → AssemblyData) :
    ℕ → ℕ → ℕ → Option AssemblyData → ℕ × ℕ × Option AssemblyData
  | 0, attempts, i, last => (attempts, i, last)
  | fuel + 1, attempts, i, _last =>
    let r := f i
    if isTerminal r.status then (attempts, i + 1, some r)
    else pollWhile f fuel (attempts + 1) (i + 1) (some r)

/-- The poll phase of `processWithAssemblyAI`: run the loop, then
`if (result.status === 'error') throw ...`, then
`if (attempts >= maxAttempts) throw ...`, else return the result.  The
first component is the number of status queries performed.  `f i` is the
status-endpoint response to the `i`-th query (0-based). -/
def pollPhase (f : ℕ → AssemblyData) :
    ℕ × Except TranscriptionError AssemblyData :=
  match pollWhile f maxAttempts 0 0 none with
  | (attempts, polls, some r) =>
    (polls,
      if r.status = some "error" then
        Except.error (.remoteProcessing (jsOrS r.error "Audio processing failed"))
      else if maxAttempts ≤ attempts then Except.error .pollTimeout
      else Except.ok r)
  | (_, polls, none) => (polls, Except.error .undefinedResult)

/-- Network oracles of the transcription client: outcome of the upload
call (a resource URL), of the job submission (a transcript id), and of
each status query. -/
structure AAIEnv where
  uploadResult : Except String String
  submitResult : Except String String
  pollResults : ℕ → AssemblyData

/-- `processWithAssemblyAI(audioBuffer)`: upload, submit, poll.  Identical
in all three variants.  Returns the ordered external calls plus the
result or thrown error. -/
def processWithAssemblyAI (env : AAIEnv) :
    List Call × Except TranscriptionError AssemblyData :=
  match env.uploadResult with
  | .error m => ([Call.aaiUpload], Except.error (.upload m))
  | .ok _url =>
    match env.submitResult with
    | .error m => ([Call.aaiUpload, Call.aaiSubmit], Except.error (.submission m))
    | .ok _id =>
      let pr := pollPhase env.pollResults
      (Call.aaiUpload :: Call.aaiSubmit :: (List.range pr.1).map Call.aaiPoll, pr.2)

example :
    pollPhase (fun _ => { status := some "completed", text := some "hi" }) =
      (1, Except.ok { status := some "completed", text := some "hi" }) := by decide
example :
    pollPhase (fun _ => { status := some "queued" }) =
      (30, Except.error .pollTimeout) := by decide
example :
    pollPhase (fun i => if i = 2 then { status := some "error", error := some "boom" }
      else { status := some "processing" }) =
      (3, Except.error (.remoteProcessing "boom")) := by decide

/-- JavaScript `x || null` applied to an optional string (the empty string
is falsy and also maps to `null`). -/
def jsOrNull (o : Option String) : Option String :=
  match o with
  | none => none
  | some s => if s = "" then none else some s

/-- The uploaded audio payload (`req.file`); only the raw bytes matter to
the orchestration. -/
structure AudioFile where
  buffer : List ℕ
deriving DecidableEq

/-- The canned transcript of `simulateAssemblyAIResults`. -/
def simulatedTranscript : String :=
  "I\x27m telling you, I really didn\x27t know about the meeting. It must have been a communication error somewhere in the system. I would never intentionally miss something that important."

/-- `simulateAssemblyAIResults()` from variant A.  The opaque
`sentiment_analysis_results` object `{text: "neutral"}` is represented by
its text payload. -/
def simulateAssemblyAIResults : AssemblyData :=
  { text := some simulatedTranscript
    confidence := some 0.85
    audio_duration := some 30
    sentiment_analysis_results := some "neutral" }

/-- `simulateHuggingFaceResults()` from variant A. -/
def simulateHuggingFaceResults : List Emotion :=
  [ { label := "neutral", score := 0.45 }
  , { label := "fear", score := 0.25 }
  , { label := "sadness", score := 0.15 }
  , { label := "anger", score := 0.08 }
  , { label := "surprise", score := 0.05 }
  , { label := "disgust", score := 0.02 } ]

/-- `simulateTruthAnalysisReport(assemblyResult, huggingResult)` from
variant A; both arguments are ignored by the source. -/
def simulateTruthAnalysisReport (_a : AssemblyData) (_h : List Emotion) :
    TruthReport :=
  { truthScore := 63
    confidence := 78
    summary := "The speaker shows moderate truthfulness with some indicators of potential deception. There are inconsistencies between vocal patterns and content."
    detailedAnalysis :=
      [ { title := "Emotional Analysis"
          content := "The speaker displays primarily neutral affect with underlying fear and sadness. This emotional profile may indicate anxiety about the topic or potential consequences." }
      , { title := "Communication Patterns"
          content := "Speech shows moderate pace with occasional hesitations. The tone is somewhat tentative, suggesting uncertainty or lack of confidence in the statements being made." } ] }

/-- The `emotions` slot of a response: provider data or the tagged
`{error: <message>}` placeholder. -/
inductive EmotionsSlot where
  | data (xs : List Emotion)
  | errorTag (msg : String)
deriving DecidableEq

/-- The `detailedAnalysis` slot: opaque pass-through from the generative
service, the simulated report (variant A), or the tagged `{error}`
placeholder (variant C). -/
inductive DetailedSlot where
  | remote (body : String)
  | report (r : TruthReport)
  | errorTag (msg : String)
deriving DecidableEq

/-- The `tones` slot of variant D: opaque IBM Watson data or the tagged
`{error}` placeholder. -/
inductive TonesSlot where
  | data (body : String)
  | errorTag (msg : String)
deriving DecidableEq

/-- The `audioMetrics` object of variants A and C. -/
structure AudioMetricsA where
  wordsPerMinute : ℤ
  confidence : Option ℚ
  audioDuration : Option ℚ
  sentiment : Option String
deriving DecidableEq

/-- The JSON response emitted by variant A
(`src/api/audio-analysis.js`). -/
structure ResponseA where
  httpStatus : ℕ
  success : Bool
  error : Option String
  transcript : Option String
  audioMetrics : Option AudioMetricsA
  emotions : Option EmotionsSlot
  detailedAnalysis : Option DetailedSlot
deriving DecidableEq

/-- The 400 response for a missing audio payload (variant A). -/
def noAudioResponseA : ResponseA :=
  { httpStatus := 400, success := false
    error := some "No audio file provided"
    transcript := none, audioMetrics := none
    emotions := none, detailedAnalysis := none }

/-- Configuration flags and provider oracles shared by variants A and C.
The source only observes the truthiness of each credential, so each is a
boolean; provider outcomes are oracles for the network calls. -/
structure Env where
  aaiConfigured : Bool
  hfConfigured : Bool
  pplxConfigured : Bool
  aai : AAIEnv
  hfResult : Except String (List Emotion)
  pplxResult : Except String String

/-- `generateSimulatedResponse(audioFile)` from variant A; the argument
is ignored by the source.  The simulated transcript and duration are
concrete, so `calculateWPM` cannot throw here and the `getD 0` default is
never taken. -/
def generateSimulatedResponse (_audioFile : Option AudioFile) : ResponseA :=
  let assemblyResult := simulateAssemblyAIResults
  let huggingResult := simulateHuggingFaceResults
  let perplexityResult := simulateTruthAnalysisReport assemblyResult huggingResult
  { httpStatus := 200, success := true, error := none
    transcript := assemblyResult.text
    audioMetrics := some
      { wordsPerMinute :=
          (calculateWPM assemblyResult.text assemblyResult.audio_duration).toOption.getD 0
        confidence := assemblyResult.confidence
        audioDuration := assemblyResult.audio_duration
        sentiment := assemblyResult.sentiment_analysis_results }
    emotions := some (EmotionsSlot.data huggingResult)
    detailedAnalysis := some (DetailedSlot.report perplexityResult) }

/-- Variant A, lines 70-81: try Hugging Face when configured, fall back to
the simulated emotion list on a missing token (the thrown
`'Hugging Face not configured'`) or on any provider failure. -/
def huggingAttemptA (env : Env) : List Call × List Emotion :=
  if env.hfConfigured then
    match env.hfResult with
    | .ok d => ([Call.hugging], d)
    | .error _ => ([Call.hugging], simulateHuggingFaceResults)
  else ([], simulateHuggingFaceResults)

/-- Variant A, lines 83-94: try Perplexity when configured, fall back to
the simulated truth-analysis report otherwise. -/
def perplexityAttemptA (env : Env) (assemblyResult : AssemblyData)
    (huggingResult : List Emotion) : List Call × DetailedSlot :=
  if env.pplxConfigured then
    match env.pplxResult with
    | .ok d => ([Call.perplexity], DetailedSlot.remote d)
    | .error _ =>
      ([Call.perplexity],
        DetailedSlot.report (simulateTruthAnalysisReport assemblyResult huggingResult))
  else ([], DetailedSlot.report (simulateTruthAnalysisReport assemblyResult huggingResult))

/-- The `app.post('/api/analyze-audio')` handler of variant A
(`src/api/audio-analysis.js`, lines 42-117).  The only statement inside
the `try` that can still throw after the inner try/catch blocks is
`calculateWPM` on an undefined transcript; that throw lands in the outer
catch, which responds with `generateSimulatedResponse(req.file)`. -/
def analyzeAudioA (env : Env) (file : Option AudioFile) :
    List Call × ResponseA :=
  match file with
  | none => ([], noAudioResponseA)
  | some audioFile =>
    if env.aaiConfigured = false then
      ([], generateSimulatedResponse (some audioFile))
    else
      let ar := processWithAssemblyAI env.aai
      let assemblyResult :=
        match ar.2 with
        | .ok r => r
        | .error _ => simulateAssemblyAIResults
      let hg := huggingAttemptA env
      let pp := perplexityAttemptA env assemblyResult hg.2
      let trace := ar.1 ++ hg.1 ++ pp.1
      match calculateWPM (jsOrOptS assemblyResult.text assemblyResult.transcript)
          (some (jsOrQ assemblyResult.audio_duration 30)) with
      | .error _ => (trace, generateSimulatedResponse (some audioFile))
      | .ok wpm =>
        (trace,
          { httpStatus := 200, success := true, error := none
            transcript := jsOrOptS assemblyResult.text assemblyResult.transcript
            audioMetrics := some
              { wordsPerMinute := wpm
                confidence := some (jsOrQ assemblyResult.confidence 0.85)
                audioDuration := some (jsOrQ assemblyResult.audio_duration 30)
                sentiment := jsOrNull assemblyResult.sentiment_analysis_results }
            emotions := some (EmotionsSlot.data hg.2)
            detailedAnalysis := some pp.2 })

/-- The JSON response emitted by variant C (the second handler in
`src/unnamed/part_000`); its catch handler additionally reports a
`details` field (`error.response?.data`, an opaque upstream payload that
we do not model further). -/
structure ResponseC where
  httpStatus : ℕ
  success : Bool
  error : Option String
  details : Option String
  transcript : Option String
  audioMetrics : Option AudioMetricsA
  emotions : Option EmotionsSlot
  detailedAnalysis : Option DetailedSlot
deriving DecidableEq

/-- The 400 response for a missing audio payload (variants C and D). -/
def noAudioResponseC : ResponseC :=
  { httpStatus := 400, success := false
    error := some "No audio file provided"
    details := none, transcript := none, audioMetrics := none
    emotions := none, detailedAnalysis := none }

/-- The 500 response of variant C when no transcription key is set. -/
def noKeyResponseC : ResponseC :=
  { httpStatus := 500, success := false
    error := some "AssemblyAI API key not configured"
    details := none, transcript := none, audioMetrics := none
    emotions := none, detailedAnalysis := none }

/-- The variant C catch handler:
`res.status(500).json({success:false, error: error.message || 'Internal
server error', details: ...})`. -/
def catchResponseC (msg : String) : ResponseC :=
  { httpStatus := 500, success := false
    error := some (jsOrS (some msg) "Internal server error")
    details := none, transcript := none, audioMetrics := none
    emotions := none, detailedAnalysis := none }

/-- Variant C, `processWithHuggingFace(audioFile.buffer)` under the
`.catch(error => ({error: error.message}))` of the `Promise.all`: a
missing token throws `'Hugging Face not configured'` before any network
call; a configured provider performs the call and a failure is caught
into the tagged placeholder. -/
def huggingAttemptC (env : Env) : List Call × EmotionsSlot :=
  if env.hfConfigured then
    match env.hfResult with
    | .ok d => ([Call.hugging], EmotionsSlot.data d)
    | .error m => ([Call.hugging], EmotionsSlot.errorTag m)
  else ([], EmotionsSlot.errorTag "Hugging Face not configured")

/-- Variant C, step 2: `processWithPerplexity` is attempted only when the
key is configured (otherwise the slot keeps its initial `null`); a
failure is caught into the tagged `{error}` placeholder. -/
def perplexityAttemptC (env : Env) : List Call × Option DetailedSlot :=
  if env.pplxConfigured then
    match env.pplxResult with
    | .ok d => ([Call.perplexity], some (DetailedSlot.remote d))
    | .error m => ([Call.perplexity], some (DetailedSlot.errorTag m))
  else ([], none)

/-- An arbitrary interleaving of two call traces, used to model the
concurrent execution of the two promises inside `Promise.all`: each
boolean of the schedule picks which pending trace contributes the next
event, and the relative order within each trace is preserved. -/
def mergeTraces : List Bool → List Call → List Call → List Call
  | _, [], ys => ys
  | _, xs, [] => xs
  | [], xs, ys => xs ++ ys
  | b :: bs, x :: xs, y :: ys =>
    if b then x :: mergeTraces bs xs (y :: ys)
    else y :: mergeTraces bs (x :: xs) ys

/-- The `app.post('/api/analyze-audio')` handler of variant C
(`src/unnamed/part_000`, lines 236-307).  `Promise.all` starts the
transcription pipeline and the Hugging Face attempt together, so their
traces interleave according to the ambient schedule; a transcription
rejection rejects the whole `Promise.all` and lands in the catch handler.
After a successful join, the Perplexity attempt runs, and the only
remaining throw site is `calculateWPM` on an undefined transcript. -/
def analyzeAudioC (env : Env) (sched : List Bool) (file : Option AudioFile) :
    List Call × ResponseC :=
  match file with
  | none => ([], noAudioResponseC)
  | some _audioFile =>
    if env.aaiConfigured = false then ([], noKeyResponseC)
    else
      let ar := processWithAssemblyAI env.aai
      let hg := huggingAttemptC env
      let joined := mergeTraces sched ar.1 hg.1
      match ar.2 with
      | .error e => (joined, catchResponseC e.message)
      | .ok result =>
        let pp := perplexityAttemptC env
        match calculateWPM result.text result.audio_duration with
        | .error m => (joined ++ pp.1, catchResponseC m)
        | .ok wpm =>
          (joined ++ pp.1,
            { httpStatus := 200, success := true, error := none, details := none
              transcript := result.text
              audioMetrics := some
                { wordsPerMinute := wpm
                  confidence := result.confidence
                  audioDuration := result.audio_duration
                  sentiment := jsOrNull result.sentiment_analysis_results }
              emotions := some hg.2
              detailedAnalysis := pp.2 })

/-- Configuration flags and provider oracles of variant D
(`src/unnamed/part_001`): the IBM Watson branch requires both the key and
the service URL. -/
structure EnvD where
  aaiConfigured : Bool
  hfConfigured : Bool
  ibmKeyConfigured : Bool
  ibmUrlConfigured : Bool
  aai : AAIEnv
  hfResult : Except String (List Emotion)
  ibmResult : Except String String

/-- The `audioMetrics` object of variant D (no sentiment subfield). -/
structure AudioMetricsD where
  wordsPerMinute : ℤ
  confidence : Option ℚ
  audioDuration : Option ℚ
deriving DecidableEq

/-- The JSON response emitted by variant D. -/
structure ResponseD where
  httpStatus : ℕ
  success : Bool
  error : Option String
  details : Option String
  transcript : Option String
  audioMetrics : Option AudioMetricsD
  emotions : Option EmotionsSlot
  tones : Option TonesSlot
  sentiment : Option String
deriving DecidableEq

/-- The 400 response for a missing audio payload (variant D). -/
def noAudioResponseD : ResponseD :=
  { httpStatus := 400, success := false
    error := some "No audio file provided"
    details := none, transcript := none, audioMetrics := none
    emotions := none, tones := none, sentiment := none }

/-- The 500 response of variant D when no transcription key is set. -/
def noKeyResponseD : ResponseD :=
  { httpStatus := 500, success := false
    error := some "AssemblyAI API key not configured"
    details := none, transcript := none, audioMetrics := none
    emotions := none, tones := none, sentiment := none }

/-- The variant D catch handler. -/
def catchResponseD (msg : String) : ResponseD :=
  { httpStatus := 500, success := false
    error := some (jsOrS (some msg) "Internal server error")
    details := none, transcript := none, audioMetrics := none
    emotions := none, tones := none, sentiment := none }

/-- Variant D, step 2: Hugging Face on the transcript text, only when
configured; a failure becomes the tagged placeholder, otherwise the slot
keeps its initial `null`. -/
def huggingAttemptD (env : EnvD) : List Call × Option EmotionsSlot :=
  if env.hfConfigured then
    match env.hfResult with
    | .ok d => ([Call.hugging], some (EmotionsSlot.data d))
    | .error m => ([Call.hugging], some (EmotionsSlot.errorTag m))
  else ([], none)

/-- Variant D, step 3: IBM Watson on the transcript text, only when both
the key and the URL are configured. -/
def watsonAttemptD (env : EnvD) : List Call × Option TonesSlot :=
  if env.ibmKeyConfigured && env.ibmUrlConfigured then
    match env.ibmResult with
    | .ok d => ([Call.watson], some (TonesSlot.data d))
    | .error m => ([Call.watson], some (TonesSlot.errorTag m))
  else ([], none)

/-- The `app.post('/api/analyze-audio')` handler of variant D
(`src/unnamed/part_001`, lines 41-118): strictly sequential — a
transcription failure is caught before any enrichment call is made. -/
def analyzeAudioD (env : EnvD) (file : Option AudioFile) :
    List Call × ResponseD :=
  match file with
  | none => ([], noAudioResponseD)
  | some _audioFile =>
    if env.aaiConfigured = false then ([], noKeyResponseD)
    else
      match processWithAssemblyAI env.aai with
      | (aTrace, .error e) => (aTrace, catchResponseD e.message)
      | (aTrace, .ok result) =>
        let hg := huggingAttemptD env
        let ws := watsonAttemptD env
        match calculateWPM result.text result.audio_duration with
        | .error m => (aTrace ++ hg.1 ++ ws.1, catchResponseD m)
        | .ok wpm =>
          (aTrace ++ hg.1 ++ ws.1,
            { httpStatus := 200, success := true, error := none, details := none
              transcript := result.text
              audioMetrics := some
                { wordsPerMinute := wpm
                  confidence := result.confidence
                  audioDuration := result.audio_duration }
              emotions := hg.2
              tones := ws.2
              sentiment := jsOrNull result.sentiment_analysis_results })

/-- The trace decomposes into a prefix without generative-analysis calls
followed by a suffix of generative-analysis calls only: the generative
call (if any) begins strictly after every other external call of the
request. -/
def perplexityOnlySuffix (tr : List Call) : Prop :=
  ∃ t₁ t₂, tr = t₁ ++ t₂ ∧ (∀ c ∈ t₁, c ≠ Call.perplexity) ∧
    ∀ c ∈ t₂, c = Call.perplexity

/-- Variant D enrichment calls (both consume transcript text). -/
def isEnrichD (c : Call) : Bool :=
  match c with
  | Call.hugging => true
  | Call.watson => true
  | _ => false

/-- The trace decomposes into transcription calls followed by enrichment
calls only. -/
def enrichOnlySuffix (tr : List Call) : Prop :=
  ∃ t₁ t₂, tr = t₁ ++ t₂ ∧ (∀ c ∈ t₁, isEnrichD c = false) ∧
    ∀ c ∈ t₂, isEnrichD c = true

/-- Variant C ordering: the generative-analysis call begins only after the
joined transcription/emotion phase has finished, and only when
transcription returned a result. -/
def generativeAfterTranscriptionC (env : Env) (sched : List Bool)
    (file : Option AudioFile) : Prop :=
  perplexityOnlySuffix (analyzeAudioC env sched file).1 ∧
    (Call.perplexity ∈ (analyzeAudioC env sched file).1 →
      ∃ r, (processWithAssemblyAI env.aai).2 = Except.ok r)

/-- Variant D ordering: transcript-consuming enrichment calls occur only
in a suffix after all transcription calls, and only when transcription
returned a result. -/
def enrichAfterTranscriptionD (env : EnvD) (file : Option AudioFile) : Prop :=
  enrichOnlySuffix (analyzeAudioD env file).1 ∧
    ((Call.hugging ∈ (analyzeAudioD env file).1 ∨
        Call.watson ∈ (analyzeAudioD env file).1) →
      ∃ r, (processWithAssemblyAI env.aai).2 = Except.ok r)

/-- A sample uploaded file for concrete runs. -/
def sampleFile : AudioFile := { buffer := [1, 2, 3] }

/-- A transcription environment that never has to answer (used where the
upload already fails). -/
def failingAAIEnv : AAIEnv :=
  { uploadResult := Except.error "network error"
    submitResult := Except.ok "transcript-id"
    pollResults := fun _ => {} }

/-- An environment for variant A in which the transcription upload fails
with a network error while the emotion provider is configured and
healthy. -/
def uploadFailEnv : Env :=
  { aaiConfigured := true, hfConfigured := true, pplxConfigured := false
    aai := failingAAIEnv
    hfResult := Except.ok [ { label := "joy", score := 0.5 } ]
    pplxResult := Except.ok "report" }

/-- The same failing upload for variant D, with both enrichment providers
configured and healthy. -/
def uploadFailEnvD : EnvD :=
  { aaiConfigured := true, hfConfigured := true
    ibmKeyConfigured := true, ibmUrlConfigured := true
    aai := { uploadResult := Except.error "socket hang up"
             submitResult := Except.ok "transcript-id"
             pollResults := fun _ => {} }
    hfResult := Except.ok [ { label := "joy", score := 0.5 } ]
    ibmResult := Except.ok "tones" }

/-- A healthy transcription environment: the job completes on the first
poll. -/
def completedAAIEnv : AAIEnv :=
  { uploadResult := Except.ok "url"
    submitResult := Except.ok "id"
    pollResults := fun _ =>
      { status := some "completed", text := some "hello world"
        audio_duration := some 30, confidence := some 0.9 } }

/-- Variant C environment with a healthy transcription service and no
generative-analysis credentials. -/
def pplxUnconfiguredEnv : Env :=
  { aaiConfigured := true, hfConfigured := true, pplxConfigured := false
    aai := completedAAIEnv
    hfResult := Except.ok [ { label := "neutral", score := 0.5 } ]
    pplxResult := Except.ok "unused" }

/-- Variant A environment with every credential absent. -/
def unconfiguredEnvA : Env :=
  { aaiConfigured := false, hfConfigured := false, pplxConfigured := false
    aai := completedAAIEnv
    hfResult := Except.ok [], pplxResult := Except.ok "" }

/-- Two variant A environments agreeing on the transcription stub but
differing in both enrichment oracles. -/
def determinismEnvOne : Env :=
  { aaiConfigured := true, hfConfigured := true, pplxConfigured := true
    aai := completedAAIEnv
    hfResult := Except.ok [ { label := "joy", score := 0.7 } ]
    pplxResult := Except.ok "report one" }

/-- See `determinismEnvOne`. -/
def determinismEnvTwo : Env :=
  { aaiConfigured := true, hfConfigured := false, pplxConfigured := true
    aai := completedAAIEnv
    hfResult := Except.error "model loading"
    pplxResult := Except.error "timeout" }

theorem pollWhile_all_nonterminal (f : ℕ → AssemblyData) :
    ∀ (n attempts i : ℕ) (last : Option AssemblyData),
      (∀ j, j ≤ n → isTerminal (f (i + j)).status = false) →
      pollWhile f (n + 1) attempts i last =
        (attempts + (n + 1), i + (n + 1), some (f (i + n))) := by
  intro n
  induction n with
  | zero =>
    intro attempts i last h
    have h0 := h 0 (Nat.le_refl 0)
    simp only [Nat.add_zero] at h0
    simp [pollWhile, h0]
  | succ n ih =>
    intro attempts i last h
    have h0 := h 0 (Nat.zero_le _)
    simp only [Nat.add_zero] at h0
    have hshift : ∀ j, j ≤ n → isTerminal (f (i + 1 + j)).status = false := by
      intro j hj
      have := h (j + 1) (Nat.succ_le_succ hj)
      have e : i + (j + 1) = i + 1 + j := by omega
      rw [e] at this
      exact this
    have hrec := ih (attempts + 1) (i + 1) (some (f i)) hshift
    have hstep : pollWhile f (n + 1 + 1) attempts i last =
        pollWhile f (n + 1) (attempts + 1) (i + 1) (some (f i)) := by
      show (if isTerminal (f i).status = true then (attempts, i + 1, some (f i))
        else pollWhile f (n + 1) (attempts + 1) (i + 1) (some (f i))) =
        pollWhile f (n + 1) (attempts + 1) (i + 1) (some (f i))
      rw [h0]
      simp
    rw [hstep, hrec]
    have e1 : attempts + 1 + (n + 1) = attempts + (n + 1 + 1) := by omega
    have e2 : i + 1 + (n + 1) = i + (n + 1 + 1) := by omega
    have e3 : i + 1 + n = i + (n + 1) := by omega
    rw [e1, e2, e3]

theorem pollWhile_first_terminal (f : ℕ → AssemblyData) :
    ∀ (k fuel attempts i : ℕ) (last : Option AssemblyData),
      k < fuel →
      (∀ j, j < k → isTerminal (f (i + j)).status = false) →
      isTerminal (f (i + k)).status = true →
      pollWhile f fuel attempts i last =
        (attempts + k, i + k + 1, some (f (i + k))) := by
  intro k
  induction k with
  | zero =>
    intro fuel attempts i last hk _hpre hterm
    match fuel, hk with
    | fuel + 1, _ =>
      simp only [Nat.add_zero] at hterm
      simp [pollWhile, hterm]
  | succ k ih =>
    intro fuel attempts i last hk hpre hterm
    match fuel, hk with
    | fuel + 1, hk =>
      have h0 := hpre 0 (Nat.succ_pos k)
      simp only [Nat.add_zero] at h0
      have hpre' : ∀ j, j < k → isTerminal (f (i + 1 + j)).status = false := by
        intro j hj
        have := hpre (j + 1) (Nat.succ_lt_succ hj)
        have e : i + (j + 1) = i + 1 + j := by omega
        rw [e] at this
        exact this
      have hterm' : isTerminal (f (i + 1 + k)).status = true := by
        have e : i + (k + 1) = i + 1 + k := by omega
        rw [e] at hterm
        exact hterm
      have hrec := ih fuel (attempts + 1) (i + 1) (some (f i))
        (Nat.lt_of_succ_lt_succ hk) hpre' hterm'
      have hstep : pollWhile f (fuel + 1) attempts i last =
          pollWhile f fuel (attempts + 1) (i + 1) (some (f i)) := by
        show (if isTerminal (f i).status = true then (attempts, i + 1, some (f i))
          else pollWhile f fuel (attempts + 1) (i + 1) (some (f i))) =
          pollWhile f fuel (attempts + 1) (i + 1) (some (f i))
        rw [h0]
        simp
      rw [hstep, hrec]
      have e1 : attempts + 1 + k = attempts + (k + 1) := by omega
      have e2 : i + 1 + k + 1 = i + (k + 1) + 1 := by omega
      have e3 : i + 1 + k = i + (k + 1) := by omega
      rw [e1, e2, e3]

/-- Claim C3: the transcription poll loop sleeps a fixed 3000 ms before
each status query, performs at most 30 attempts, treats every
non-terminal status by polling again, and — when no poll among the 30
returns a terminal status — fails with the poll-timeout error after
exactly 30 polls. -/
theorem c3_poll_timeout :
    pollIntervalMs = 3000 ∧ maxAttempts = 30 ∧
    ∀ f : ℕ → AssemblyData,
      (∀ i, i < 30 → isTerminal (f i).status = false) →
      pollPhase f = (30, Except.error TranscriptionError.pollTimeout) := by
  refine ⟨rfl, rfl, ?_⟩
  intro f h
  have hall : ∀ j, j ≤ 29 → isTerminal (f (0 + j)).status = false := by
    intro j hj
    simpa using h j (by omega)
  have hw := pollWhile_all_nonterminal f 29 0 0 none hall
  have h29 := h 29 (by omega)
  have hne : ¬(f 29).status = some "error" := by
    simp [isTerminal] at h29
    exact h29.2
  unfold pollPhase
  rw [show maxAttempts = 29 + 1 from rfl, hw]
  simp [hne]

/-- Witness for C3: a status oracle that always reports a pending job
(its `status` field stays `undefined`) times out after 30 polls. -/
theorem c3_poll_timeout_witness :
    pollPhase (fun _ => ({} : AssemblyData)) =
      (30, Except.error TranscriptionError.pollTimeout) :=
  c3_poll_timeout.2.2 (fun _ => {}) (fun _ _ => rfl)

/-- Claim C10: if the job reaches status `completed` on poll `i` (0-based,
so poll `i + 1` in 1-based counting, for any `i + 1 ≤ 30` including the
30th and final permitted poll) and every earlier poll was non-terminal,
the loop returns the completed result instead of reporting a timeout:
`attempts` is incremented only after a non-terminal poll, so the
post-loop `attempts >= maxAttempts` check does not fire on a
terminal-status exit. -/
theorem c10_completed_final_poll :
    ∀ (f : ℕ → AssemblyData) (i : ℕ), i < 30 →
      (∀ j, j < i → isTerminal (f j).status = false) →
      (f i).status = some "completed" →
      pollPhase f = (i + 1, Except.ok (f i)) := by
  intro f i hi hpre hc
  have hterm : isTerminal (f (0 + i)).status = true := by
    simp [isTerminal, hc]
  have hpre' : ∀ j, j < i → isTerminal (f (0 + j)).status = false := by
    intro j hj
    simpa using hpre j hj
  have hw := pollWhile_first_terminal f i maxAttempts 0 0 none hi hpre' hterm
  have hle : ¬ maxAttempts ≤ i := by
    rw [show maxAttempts = 30 from rfl]
    omega
  unfold pollPhase
  rw [hw]
  simp [hc, hle]

/-- Witness for C10: the job completes exactly on the 30th permitted poll
(0-based index 29) and the loop still returns the completed result. -/
theorem c10_completed_final_poll_witness :
    pollPhase (fun j => if j = 29 then
        { status := some "completed", text := some "done" } else {}) =
      (30, Except.ok { status := some "completed", text := some "done" }) := by
  have h := c10_completed_final_poll
    (fun j => if j = 29 then { status := some "completed", text := some "done" } else {})
    29 (by omega)
    (fun j hj => by
      have : ¬(j = 29) := by omega
      simp only [this, if_false]
      rfl)
    (by simp)
  simpa using h

theorem splitWsGo_length_acc (cs : List Char) :
    ∀ acc : List Char,
      (splitWsGo cs (some acc)).length = (splitWsGo cs (some [])).length := by
  induction cs with
  | nil => intro acc; simp [splitWsGo]
  | cons c cs ih =>
    intro acc
    by_cases hws : c.isWhitespace
    · simp [splitWsGo, hws]
    · simp only [splitWsGo, hws, Bool.false_eq_true, if_false]
      rw [ih (c :: acc), ih [c]]

theorem countWords_lead (d : Char) (ds : List Char) :
    countWords (d :: ds) false + leadT (d :: ds) = 1 + countWords (d :: ds) true := by
  by_cases hws : d.isWhitespace
  · simp [countWords, leadT, hws]
    omega
  · simp [countWords, leadT, hws]

theorem splitWsGo_cons_acc_ws {c : Char} (hws : c.isWhitespace = true)
    (cs acc : List Char) :
    splitWsGo (c :: cs) (some acc) = acc.reverse :: splitWsGo cs none := by
  show (if c.isWhitespace = true then acc.reverse :: splitWsGo cs none
    else splitWsGo cs (some (c :: acc))) = acc.reverse :: splitWsGo cs none
  rw [if_pos hws]

theorem splitWsGo_cons_acc_nonws {c : Char} (hws : ¬c.isWhitespace = true)
    (cs acc : List Char) :
    splitWsGo (c :: cs) (some acc) = splitWsGo cs (some (c :: acc)) := by
  show (if c.isWhitespace = true then acc.reverse :: splitWsGo cs none
    else splitWsGo cs (some (c :: acc))) = splitWsGo cs (some (c :: acc))
  rw [if_neg hws]

theorem splitWsGo_cons_none_ws {c : Char} (hws : c.isWhitespace = true)
    (cs : List Char) :
    splitWsGo (c :: cs) none = splitWsGo cs none := by
  show (if c.isWhitespace = true then splitWsGo cs none
    else splitWsGo cs (some [c])) = splitWsGo cs none
  rw [if_pos hws]

theorem splitWsGo_cons_none_nonws {c : Char} (hws : ¬c.isWhitespace = true)
    (cs : List Char) :
    splitWsGo (c :: cs) none = splitWsGo cs (some [c]) := by
  show (if c.isWhitespace = true then splitWsGo cs none
    else splitWsGo cs (some [c])) = splitWsGo cs (some [c])
  rw [if_neg hws]

theorem countWords_ws {c : Char} (hws : c.isWhitespace = true)
    (cs : List Char) (b : Bool) :
    countWords (c :: cs) b = countWords cs false := by
  show (if c.isWhitespace = true then countWords cs false
    else (if b then 0 else 1) + countWords cs true) = countWords cs false
  rw [if_pos hws]

theorem countWords_nonws {c : Char} (hws : ¬c.isWhitespace = true)
    (cs : List Char) (b : Bool) :
    countWords (c :: cs) b = (if b then 0 else 1) + countWords cs true := by
  show (if c.isWhitespace = true then countWords cs false
    else (if b then 0 else 1) + countWords cs true) = _
  rw [if_neg hws]

theorem splitWsGo_length_eq (cs : List Char) :
    (splitWsGo cs (some [])).length
        = countWords cs false + leadT cs + trailT cs + emptyT cs ∧
      (splitWsGo cs none).length
        = countWords cs false + trailT cs + emptyT cs := by
  induction cs with
  | nil => simp [splitWsGo, countWords, leadT, trailT, emptyT]
  | cons c cs ih =>
    by_cases hws : c.isWhitespace
    · cases cs with
      | nil =>
        rw [splitWsGo_cons_acc_ws hws, splitWsGo_cons_none_ws hws]
        simp [splitWsGo, countWords, leadT, trailT, emptyT, hws]
      | cons d ds =>
        have htr : trailT (c :: d :: ds) = trailT (d :: ds) := by
          simp [trailT, List.getLast?_cons_cons]
        have hl : leadT (c :: d :: ds) = 1 := by simp [leadT, hws]
        constructor
        · rw [splitWsGo_cons_acc_ws hws, List.length_cons, ih.2,
            countWords_ws hws, htr, hl]
          simp [emptyT]
          omega
        · rw [splitWsGo_cons_none_ws hws, ih.2, countWords_ws hws, htr]
          simp [emptyT]
    · cases cs with
      | nil =>
        rw [splitWsGo_cons_acc_nonws hws, splitWsGo_cons_none_nonws hws]
        simp [splitWsGo, countWords, leadT, trailT, emptyT, hws]
      | cons d ds =>
        have htr : trailT (c :: d :: ds) = trailT (d :: ds) := by
          simp [trailT, List.getLast?_cons_cons]
        have hl : leadT (c :: d :: ds) = 0 := by simp [leadT, hws]
        have hwv := countWords_lead d ds
        constructor
        · rw [splitWsGo_cons_acc_nonws hws, splitWsGo_length_acc (d :: ds) [c],
            ih.1, countWords_nonws hws, htr, hl]
          simp only [emptyT, if_false, Bool.false_eq_true]
          omega
        · rw [splitWsGo_cons_none_nonws hws, splitWsGo_length_acc (d :: ds) [c],
            ih.1, countWords_nonws hws, htr]
          simp only [emptyT, if_false, Bool.false_eq_true]
          omega

/-- Claim C4 counterexample: for the transcript `" hello"` (one word,
leading whitespace) and a 60 s duration, `calculateWPM` returns 2 because
`split(/\s+/)` also counts the empty token produced by the leading
whitespace, while the spec formula over non-empty tokens yields 1. -/
theorem c4_wpm_counterexample :
    calculateWPM (some " hello") (some 60) = Except.ok 2 ∧
    specWordsPerMinute " hello" 60 = 1 := by
  exact ⟨by decide, by decide⟩

/-- Claim C4 (amended): the metric is
`round(jsSplitLen(text) / (duration/60))`, where `jsSplitLen` counts the
tokens of `split(/\s+/)` — the non-empty tokens plus one extra empty
token for leading whitespace, one for trailing whitespace, and a single
empty token for the empty string; the metric is 0 whenever the duration
is zero or absent, and the two cited instances evaluate to 12 and 0. -/
theorem c4_wpm_amended :
    calculateWPM (some "one two three four five six") (some 30) = Except.ok 12 ∧
    calculateWPM (some "hello") (some 0) = Except.ok 0 ∧
    (∀ t : Option String, calculateWPM t none = Except.ok 0) ∧
    (∀ t : Option String, calculateWPM t (some 0) = Except.ok 0) ∧
    (∀ (s : String) (d : ℚ), d ≠ 0 →
      calculateWPM (some s) (some d) =
        Except.ok (jsRound ((jsSplitLen s : ℚ) / (d / 60)))) ∧
    (∀ s : String,
      jsSplitLen s
        = specWordCount s + leadT s.data + trailT s.data + emptyT s.data) := by
  refine ⟨by decide, by decide, ?_, ?_, ?_, ?_⟩
  · intro t
    rfl
  · intro t
    simp [calculateWPM]
  · intro s d hd
    simp [calculateWPM, hd]
  · intro s
    exact (splitWsGo_length_eq s.data).1

/-- Witness for C4 (amended): the general formula at a transcript of two
words and a non-zero duration, and the absent-duration case. -/
theorem c4_wpm_amended_witness :
    calculateWPM (some "a b") (some 60) =
      Except.ok (jsRound ((jsSplitLen "a b" : ℚ) / (60 / 60))) ∧
    calculateWPM (some "x") none = Except.ok 0 :=
  ⟨c4_wpm_amended.2.2.2.2.1 "a b" 60 (by norm_num),
    c4_wpm_amended.2.2.1 (some "x")⟩

/-- Claim C7: a request without an audio payload is answered immediately
with the 400 `{success:false, error:'No audio file provided'}` response,
and no external call is made (the trace is empty), in both cited
variants. -/
theorem c7_missing_input :
    ∀ (envA : Env) (envD : EnvD),
      analyzeAudioA envA none = ([], noAudioResponseA) ∧
      analyzeAudioD envD none = ([], noAudioResponseD) := by
  intro envA envD
  exact ⟨rfl, rfl⟩

set_option maxRecDepth 8000 in
/-- Claim C9: `generateSimulatedResponse` ignores its argument and always
returns the same successful response — the fixed transcript, confidence
0.85, duration 30, the canned emotion list and the canned
truth-analysis report — and it is what variant A emits whenever the
transcription key is missing. -/
theorem c9_simulated_constant :
    (∀ audioFile : Option AudioFile,
      generateSimulatedResponse audioFile =
        { httpStatus := 200, success := true, error := none
          transcript := some simulatedTranscript
          audioMetrics := some
            { wordsPerMinute := 58, confidence := some 0.85
              audioDuration := some 30, sentiment := some "neutral" }
          emotions := some (EmotionsSlot.data simulateHuggingFaceResults)
          detailedAnalysis := some (DetailedSlot.report
            (simulateTruthAnalysisReport simulateAssemblyAIResults
              simulateHuggingFaceResults)) }) ∧
    ∀ (env : Env) (f : AudioFile), env.aaiConfigured = false →
      analyzeAudioA env (some f) = ([], generateSimulatedResponse (some f)) := by
  constructor
  · intro audioFile
    have harg : generateSimulatedResponse audioFile
        = generateSimulatedResponse none := rfl
    rw [harg]
    decide
  · intro env f h
    simp [analyzeAudioA, h]

/-- Witness for C9: a concrete unconfigured environment gets the
simulated response. -/
theorem c9_simulated_constant_witness :
    analyzeAudioA unconfiguredEnvA (some sampleFile) =
      ([], generateSimulatedResponse (some sampleFile)) :=
  c9_simulated_constant.2 unconfiguredEnvA sampleFile rfl

/-- Claim C8: in variant A the `transcript` and `audioMetrics` fields of
the response are determined by the request file, the transcription
configuration flag and the transcription oracles alone; the enrichment
configuration and oracles (in particular the generative-report content)
cannot influence them.  Hence two invocations with identical bytes
against a deterministic transcription stub produce identical
`transcript` and `audioMetrics` fields. -/
theorem c8_transcript_metrics_deterministic :
    ∀ (env env' : Env) (file : Option AudioFile),
      env.aaiConfigured = env'.aaiConfigured →
      env.aai = env'.aai →
      (analyzeAudioA env file).2.transcript
          = (analyzeAudioA env' file).2.transcript ∧
        (analyzeAudioA env file).2.audioMetrics
          = (analyzeAudioA env' file).2.audioMetrics := by
  intro env env' file h1 h2
  obtain ⟨a1, a2, a3, a4, a5, a6⟩ := env
  obtain ⟨b1, b2, b3, b4, b5, b6⟩ := env'
  dsimp only at h1 h2
  subst h1
  subst h2
  cases file with
  | none => exact ⟨rfl, rfl⟩
  | some f =>
    simp only [analyzeAudioA]
    by_cases hcfg : a1 = false
    · rw [if_pos hcfg, if_pos hcfg]
      exact ⟨rfl, rfl⟩
    · rw [if_neg hcfg, if_neg hcfg]
      cases har : (processWithAssemblyAI a4).2 with
      | error e =>
        dsimp only
        cases hwpm : calculateWPM
            (jsOrOptS simulateAssemblyAIResults.text simulateAssemblyAIResults.transcript)
            (some (jsOrQ simulateAssemblyAIResults.audio_duration 30)) with
        | error e2 => exact ⟨rfl, rfl⟩
        | ok w => exact ⟨rfl, rfl⟩
      | ok r =>
        dsimp only
        cases hwpm : calculateWPM (jsOrOptS r.text r.transcript)
            (some (jsOrQ r.audio_duration 30)) with
        | error e2 => exact ⟨rfl, rfl⟩
        | ok w => exact ⟨rfl, rfl⟩

/-- Witness for C8: two environments sharing the transcription stub but
with different enrichment configuration and failing enrichment oracles
agree on `transcript` and `audioMetrics`. -/
theorem c8_transcript_metrics_deterministic_witness :
    (analyzeAudioA determinismEnvOne (some sampleFile)).2.transcript
        = (analyzeAudioA determinismEnvTwo (some sampleFile)).2.transcript ∧
      (analyzeAudioA determinismEnvOne (some sampleFile)).2.audioMetrics
        = (analyzeAudioA determinismEnvTwo (some sampleFile)).2.audioMetrics :=
  c8_transcript_metrics_deterministic determinismEnvOne determinismEnvTwo
    (some sampleFile) rfl rfl

theorem jsOrQ_default_ne_zero (o : Option ℚ) : jsOrQ o 30 ≠ 0 := by
  cases o with
  | none => norm_num [jsOrQ]
  | some v =>
    simp only [jsOrQ]
    by_cases hv : v = 0
    · rw [if_pos hv]
      norm_num
    · rw [if_neg hv]
      exact hv

theorem calculateWPM_ok_text_ne_none {T : Option String} {d : ℚ} {w : ℤ}
    (hd : d ≠ 0) (h : calculateWPM T (some d) = Except.ok w) : T ≠ none := by
  intro hT
  subst hT
  simp [calculateWPM, hd] at h

set_option maxRecDepth 8000 in
/-- Claim C1 counterexample: in variant A, when the transcription upload
fails with a network error mid-flight, the handler still emits
`success=true` with the placeholder-substituted canned transcript,
masking the failure. -/
theorem c1_counterexample :
    (processWithAssemblyAI uploadFailEnv.aai).2
        = Except.error (TranscriptionError.upload "network error") ∧
      (analyzeAudioA uploadFailEnv (some sampleFile)).2.success = true ∧
      (analyzeAudioA uploadFailEnv (some sampleFile)).2.transcript
        = some simulatedTranscript := by
  exact ⟨by decide, by decide, by decide⟩

/-- Claim C1 (amended): every emitted response either has `success=true`
with a non-null transcript or is an explicit `{success:false, error}`
object; however, in the audio-analysis.js variant a `success=true`
response may carry the canned placeholder transcript substituted after a
mid-flight transcription failure, so the "never masks a mid-flight
failure" part fails there.  For the part_000 variant the full invariant
holds whenever completed transcription results carry a transcript
string. -/
theorem c1_response_amended :
    (∀ (env : Env) (file : Option AudioFile),
      ((analyzeAudioA env file).2.success = true ∧
        (analyzeAudioA env file).2.transcript ≠ none) ∨
      ((analyzeAudioA env file).2.success = false ∧
        (analyzeAudioA env file).2.error ≠ none)) ∧
    ∀ (env : Env) (sched : List Bool) (file : Option AudioFile),
      (∀ r, (processWithAssemblyAI env.aai).2 = Except.ok r → r.text ≠ none) →
      ((analyzeAudioC env sched file).2.success = true ∧
        (analyzeAudioC env sched file).2.transcript ≠ none) ∨
      ((analyzeAudioC env sched file).2.success = false ∧
        (analyzeAudioC env sched file).2.error ≠ none) := by
  constructor
  · intro env file
    cases file with
    | none =>
      right
      exact ⟨rfl, by simp [analyzeAudioA, noAudioResponseA]⟩
    | some f =>
      simp only [analyzeAudioA]
      by_cases hcfg : env.aaiConfigured = false
      · rw [if_pos hcfg]
        left
        exact ⟨rfl, by simp [generateSimulatedResponse, simulateAssemblyAIResults]⟩
      · rw [if_neg hcfg]
        cases har : (processWithAssemblyAI env.aai).2 with
        | error e =>
          dsimp only
          cases hwpm : calculateWPM
              (jsOrOptS simulateAssemblyAIResults.text simulateAssemblyAIResults.transcript)
              (some (jsOrQ simulateAssemblyAIResults.audio_duration 30)) with
          | error e2 =>
            left
            exact ⟨rfl, by simp [generateSimulatedResponse, simulateAssemblyAIResults]⟩
          | ok w =>
            left
            exact ⟨rfl, calculateWPM_ok_text_ne_none (jsOrQ_default_ne_zero _) hwpm⟩
        | ok r =>
          dsimp only
          cases hwpm : calculateWPM (jsOrOptS r.text r.transcript)
              (some (jsOrQ r.audio_duration 30)) with
          | error e2 =>
            left
            exact ⟨rfl, by simp [generateSimulatedResponse, simulateAssemblyAIResults]⟩
          | ok w =>
            left
            exact ⟨rfl, calculateWPM_ok_text_ne_none (jsOrQ_default_ne_zero _) hwpm⟩
  · intro env sched file hwt
    cases file with
    | none =>
      right
      exact ⟨rfl, by simp [analyzeAudioC, noAudioResponseC]⟩
    | some f =>
      simp only [analyzeAudioC]
      by_cases hcfg : env.aaiConfigured = false
      · rw [if_pos hcfg]
        right
        exact ⟨rfl, by simp [noKeyResponseC]⟩
      · rw [if_neg hcfg]
        cases har : (processWithAssemblyAI env.aai).2 with
        | error e =>
          dsimp only
          right
          exact ⟨rfl, by simp [catchResponseC, jsOrS]⟩
        | ok r =>
          have htext : r.text ≠ none := hwt r har
          dsimp only
          cases hwpm : calculateWPM r.text r.audio_duration with
          | error e2 =>
            right
            exact ⟨rfl, by simp [catchResponseC, jsOrS]⟩
          | ok w =>
            left
            exact ⟨rfl, htext⟩

set_option maxRecDepth 8000 in
/-- Witness for C1 (amended): both conjuncts at concrete environments —
an unconfigured variant A environment and a variant C environment whose
transcription stub completes with a transcript on the first poll. -/
theorem c1_response_amended_witness :
    (((analyzeAudioA unconfiguredEnvA (some sampleFile)).2.success = true ∧
        (analyzeAudioA unconfiguredEnvA (some sampleFile)).2.transcript ≠ none) ∨
      ((analyzeAudioA unconfiguredEnvA (some sampleFile)).2.success = false ∧
        (analyzeAudioA unconfiguredEnvA (some sampleFile)).2.error ≠ none)) ∧
    (((analyzeAudioC pplxUnconfiguredEnv [] (some sampleFile)).2.success = true ∧
        (analyzeAudioC pplxUnconfiguredEnv [] (some sampleFile)).2.transcript ≠ none) ∨
      ((analyzeAudioC pplxUnconfiguredEnv [] (some sampleFile)).2.success = false ∧
        (analyzeAudioC pplxUnconfiguredEnv [] (some sampleFile)).2.error ≠ none)) :=
  ⟨c1_response_amended.1 unconfiguredEnvA (some sampleFile),
    c1_response_amended.2 pplxUnconfiguredEnv [] (some sampleFile)
      (by
        intro r h
        have h1 : (processWithAssemblyAI pplxUnconfiguredEnv.aai).2 = Except.ok ({ status := some "completed", text := some "hello world", confidence := some 0.9, audio_duration := some 30 } : AssemblyData) := by
          decide
        rw [h1] at h
        injection h with h2
        subst h2
        decide)⟩

set_option maxRecDepth 8000 in
/-- Claim C2 counterexample: in variant A a transcription upload network
error does not yield `success:false` — the handler substitutes simulated
transcription data, answers `success:true`, and still invokes the
configured emotion-classification provider. -/
theorem c2_counterexample :
    uploadFailEnv.aai.uploadResult = Except.error "network error" ∧
      (analyzeAudioA uploadFailEnv (some sampleFile)).2.success = true ∧
      Call.hugging ∈ (analyzeAudioA uploadFailEnv (some sampleFile)).1 := by
  exact ⟨by decide, by decide, by decide⟩

/-- Claim C2 (amended): in the sequential part_001 variant the property
holds — when the transcription upload fails with a network error the
request yields `success:false` and neither enrichment provider (the
emotion classifier or the tone analyzer) is invoked.  The
audio-analysis.js variant instead masks the failure with simulated data,
returns `success:true`, and still invokes configured enrichment
providers (see the counterexample). -/
theorem c2_upload_failure_amended :
    ∀ (env : EnvD) (f : AudioFile) (m : String),
      env.aai.uploadResult = Except.error m →
      (analyzeAudioD env (some f)).2.success = false ∧
        Call.hugging ∉ (analyzeAudioD env (some f)).1 ∧
        Call.watson ∉ (analyzeAudioD env (some f)).1 := by
  intro env f m hup
  by_cases hcfg : env.aaiConfigured = false
  · simp [analyzeAudioD, hcfg, noKeyResponseD]
  · have hproc : processWithAssemblyAI env.aai =
        ([Call.aaiUpload], Except.error (.upload m)) := by
      unfold processWithAssemblyAI
      rw [hup]
    simp [analyzeAudioD, hcfg, hproc, catchResponseD]

/-- Witness for C2 (amended): a concrete variant D environment whose
upload fails. -/
theorem c2_upload_failure_amended_witness :
    (analyzeAudioD uploadFailEnvD (some sampleFile)).2.success = false ∧
      Call.hugging ∉ (analyzeAudioD uploadFailEnvD (some sampleFile)).1 ∧
      Call.watson ∉ (analyzeAudioD uploadFailEnvD (some sampleFile)).1 :=
  c2_upload_failure_amended uploadFailEnvD sampleFile "socket hang up" rfl

theorem mem_mergeTraces :
    ∀ (sched : List Bool) (xs ys : List Call) (c : Call),
      c ∈ mergeTraces sched xs ys → c ∈ xs ∨ c ∈ ys := by
  intro sched
  induction sched with
  | nil =>
    intro xs ys c h
    cases xs with
    | nil => exact Or.inr (by simpa [mergeTraces] using h)
    | cons x xs =>
      cases ys with
      | nil => exact Or.inl (by simpa [mergeTraces] using h)
      | cons y ys =>
        exact List.mem_append.mp (by simpa [mergeTraces] using h)
  | cons b bs ih =>
    intro xs ys c h
    cases xs with
    | nil => exact Or.inr (by simpa [mergeTraces] using h)
    | cons x xs =>
      cases ys with
      | nil => exact Or.inl (by simpa [mergeTraces] using h)
      | cons y ys =>
        cases b with
        | true =>
          simp only [mergeTraces, if_true] at h
          rcases List.mem_cons.mp h with h | h
          · exact Or.inl (h ▸ List.mem_cons_self x xs)
          · rcases ih xs (y :: ys) c h with h | h
            · exact Or.inl (List.mem_cons_of_mem x h)
            · exact Or.inr h
        | false =>
          simp only [mergeTraces, Bool.false_eq_true, if_false] at h
          rcases List.mem_cons.mp h with h | h
          · exact Or.inr (h ▸ List.mem_cons_self y ys)
          · rcases ih (x :: xs) ys c h with h | h
            · exact Or.inl h
            · exact Or.inr (List.mem_cons_of_mem y h)

theorem processWithAssemblyAI_calls (env : AAIEnv) (c : Call)
    (h : c ∈ (processWithAssemblyAI env).1) :
    c = Call.aaiUpload ∨ c = Call.aaiSubmit ∨ ∃ i, c = Call.aaiPoll i := by
  unfold processWithAssemblyAI at h
  cases hu : env.uploadResult with
  | error m =>
    rw [hu] at h
    simp at h
    exact Or.inl h
  | ok u =>
    rw [hu] at h
    cases hs : env.submitResult with
    | error m =>
      rw [hs] at h
      simp at h
      rcases h with h | h
      · exact Or.inl h
      · exact Or.inr (Or.inl h)
    | ok s =>
      rw [hs] at h
      simp only [List.mem_cons] at h
      rcases h with h | h | h
      · exact Or.inl h
      · exact Or.inr (Or.inl h)
      · rcases List.mem_map.mp h with ⟨i, _, hi⟩
        exact Or.inr (Or.inr ⟨i, hi.symm⟩)

theorem huggingAttemptC_calls (env : Env) (c : Call)
    (h : c ∈ (huggingAttemptC env).1) : c = Call.hugging := by
  unfold huggingAttemptC at h
  by_cases hc : env.hfConfigured
  · rw [if_pos hc] at h
    cases he : env.hfResult with
    | ok d => rw [he] at h; simpa using h
    | error m => rw [he] at h; simpa using h
  · rw [if_neg hc] at h
    simp at h

theorem perplexityAttemptC_calls (env : Env) (c : Call)
    (h : c ∈ (perplexityAttemptC env).1) : c = Call.perplexity := by
  unfold perplexityAttemptC at h
  by_cases hc : env.pplxConfigured
  · rw [if_pos hc] at h
    cases he : env.pplxResult with
    | ok d => rw [he] at h; simpa using h
    | error m => rw [he] at h; simpa using h
  · rw [if_neg hc] at h
    simp at h

theorem huggingAttemptD_calls (env : EnvD) (c : Call)
    (h : c ∈ (huggingAttemptD env).1) : c = Call.hugging := by
  unfold huggingAttemptD at h
  by_cases hc : env.hfConfigured
  · rw [if_pos hc] at h
    cases he : env.hfResult with
    | ok d => rw [he] at h; simpa using h
    | error m => rw [he] at h; simpa using h
  · rw [if_neg hc] at h
    simp at h

theorem watsonAttemptD_calls (env : EnvD) (c : Call)
    (h : c ∈ (watsonAttemptD env).1) : c = Call.watson := by
  unfold watsonAttemptD at h
  by_cases hc : (env.ibmKeyConfigured && env.ibmUrlConfigured) = true
  · rw [if_pos hc] at h
    cases he : env.ibmResult with
    | ok d => rw [he] at h; simpa using h
    | error m => rw [he] at h; simpa using h
  · rw [if_neg hc] at h
    simp at h

theorem mergeTraces_no_perplexity (env : Env) (sched : List Bool) (c : Call)
    (h : c ∈ mergeTraces sched (processWithAssemblyAI env.aai).1
      (huggingAttemptC env).1) : c ≠ Call.perplexity := by
  rcases mem_mergeTraces sched _ _ c h with h1 | h1
  · rcases processWithAssemblyAI_calls env.aai c h1 with h2 | h2 | ⟨i, h2⟩ <;>
      subst h2 <;> simp
  · rw [huggingAttemptC_calls env c h1]
    simp

theorem analyzeAudioC_trace_error (env : Env) (sched : List Bool)
    (f : AudioFile) (e : TranscriptionError)
    (hcfg : ¬env.aaiConfigured = false)
    (har : (processWithAssemblyAI env.aai).2 = Except.error e) :
    (analyzeAudioC env sched (some f)).1 =
      mergeTraces sched (processWithAssemblyAI env.aai).1
        (huggingAttemptC env).1 := by
  simp only [analyzeAudioC]
  rw [if_neg hcfg, har]

theorem analyzeAudioC_trace_ok (env : Env) (sched : List Bool)
    (f : AudioFile) (r : AssemblyData)
    (hcfg : ¬env.aaiConfigured = false)
    (har : (processWithAssemblyAI env.aai).2 = Except.ok r) :
    (analyzeAudioC env sched (some f)).1 =
      mergeTraces sched (processWithAssemblyAI env.aai).1
          (huggingAttemptC env).1
        ++ (perplexityAttemptC env).1 := by
  simp only [analyzeAudioC]
  rw [if_neg hcfg, har]
  dsimp only
  cases hw : calculateWPM r.text r.audio_duration <;> rfl

theorem analyzeAudioD_eq_error (env : EnvD) (f : AudioFile)
    (aT : List Call) (e : TranscriptionError)
    (hcfg : ¬env.aaiConfigured = false)
    (hp : processWithAssemblyAI env.aai = (aT, Except.error e)) :
    analyzeAudioD env (some f) = (aT, catchResponseD e.message) := by
  simp only [analyzeAudioD]
  rw [if_neg hcfg, hp]

theorem analyzeAudioD_trace_ok (env : EnvD) (f : AudioFile)
    (aT : List Call) (r : AssemblyData)
    (hcfg : ¬env.aaiConfigured = false)
    (hp : processWithAssemblyAI env.aai = (aT, Except.ok r)) :
    (analyzeAudioD env (some f)).1 =
      aT ++ (huggingAttemptD env).1 ++ (watsonAttemptD env).1 := by
  simp only [analyzeAudioD]
  rw [if_neg hcfg, hp]
  dsimp only
  cases hw : calculateWPM r.text r.audio_duration <;> rfl

/-- Claim C6: in variant C the generative-analysis call begins strictly
after the joined transcription-and-emotion phase — so strictly after
transcription has completed or failed and after the emotion result or
its failure placeholder exists — and only when transcription returned a
result; in variant D both transcript-consuming enrichment calls occur
strictly after all transcription calls and only when transcription
succeeded. -/
theorem c6_ordering :
    ∀ (env : Env) (sched : List Bool) (file : Option AudioFile)
      (envD : EnvD) (fileD : Option AudioFile),
      generativeAfterTranscriptionC env sched file ∧
        enrichAfterTranscriptionD envD fileD := by
  intro env sched file envD fileD
  constructor
  · unfold generativeAfterTranscriptionC
    cases file with
    | none =>
      constructor
      · exact ⟨[], [], by simp [analyzeAudioC], by simp, by simp⟩
      · intro hmem
        simp [analyzeAudioC] at hmem
    | some f =>
      by_cases hcfg : env.aaiConfigured = false
      · constructor
        · exact ⟨[], [], by simp [analyzeAudioC, hcfg], by simp, by simp⟩
        · intro hmem
          simp [analyzeAudioC, hcfg] at hmem
      · cases har : (processWithAssemblyAI env.aai).2 with
        | error e =>
          have htr := analyzeAudioC_trace_error env sched f e hcfg har
          constructor
          · refine ⟨mergeTraces sched (processWithAssemblyAI env.aai).1
                (huggingAttemptC env).1, [], by rw [htr]; simp, ?_, by simp⟩
            intro c hc
            exact mergeTraces_no_perplexity env sched c hc
          · intro hmem
            rw [htr] at hmem
            exact absurd rfl (mergeTraces_no_perplexity env sched _ hmem)
        | ok r =>
          have htr := analyzeAudioC_trace_ok env sched f r hcfg har
          constructor
          · refine ⟨mergeTraces sched (processWithAssemblyAI env.aai).1
                (huggingAttemptC env).1, (perplexityAttemptC env).1,
                by rw [htr], ?_, ?_⟩
            · intro c hc
              exact mergeTraces_no_perplexity env sched c hc
            · intro c hc
              exact perplexityAttemptC_calls env c hc
          · intro _
            exact ⟨r, rfl⟩
  · unfold enrichAfterTranscriptionD
    cases fileD with
    | none =>
      constructor
      · exact ⟨[], [], by simp [analyzeAudioD], by simp, by simp⟩
      · intro hmem
        rcases hmem with h | h <;> simp [analyzeAudioD] at h
    | some f =>
      by_cases hcfg : envD.aaiConfigured = false
      · constructor
        · exact ⟨[], [], by simp [analyzeAudioD, hcfg], by simp, by simp⟩
        · intro hmem
          rcases hmem with h | h <;> simp [analyzeAudioD, hcfg] at h
      · rcases hpp : processWithAssemblyAI envD.aai with ⟨aT, aRes⟩
        have haT : ∀ c, c ∈ aT → isEnrichD c = false := by
          intro c hc
          have hmem : c ∈ (processWithAssemblyAI envD.aai).1 := by
            rw [hpp]
            exact hc
          rcases processWithAssemblyAI_calls envD.aai c hmem with h2 | h2 | ⟨i, h2⟩ <;>
            subst h2 <;> rfl
        cases aRes with
        | error e =>
          have htr : (analyzeAudioD envD (some f)).1 = aT := by
            rw [analyzeAudioD_eq_error envD f aT e hcfg hpp]
          constructor
          · exact ⟨aT, [], by rw [htr]; simp, haT, by simp⟩
          · intro hmem
            rcases hmem with h | h
            · rw [htr] at h
              have hfalse := haT _ h
              simp [isEnrichD] at hfalse
            · rw [htr] at h
              have hfalse := haT _ h
              simp [isEnrichD] at hfalse
        | ok r =>
          have htr := analyzeAudioD_trace_ok envD f aT r hcfg hpp
          constructor
          · refine ⟨aT, (huggingAttemptD envD).1 ++ (watsonAttemptD envD).1,
              by rw [htr, List.append_assoc], haT, ?_⟩
            intro c hc
            rcases List.mem_append.mp hc with h | h
            · rw [huggingAttemptD_calls envD c h]
              rfl
            · rw [watsonAttemptD_calls envD c h]
              rfl
          · intro _
            exact ⟨r, rfl⟩

theorem calculateWPM_some_ok (t : String) (dur : Option ℚ) :
    ∃ w, calculateWPM (some t) dur = Except.ok w := by
  cases dur with
  | none => exact ⟨0, rfl⟩
  | some d =>
    by_cases hd : d = 0
    · exact ⟨0, by simp [calculateWPM, hd]⟩
    · exact ⟨jsRound ((jsSplitLen t : ℚ) / (d / 60)), by simp [calculateWPM, hd]⟩

set_option maxRecDepth 8000 in
/-- Claim C5 counterexample: in variant C with the generative-analysis
provider unconfigured, the request proceeds but the provider's output
slot is `null`, not the tagged `{error: <message>}` placeholder the
claim requires for every enrichment provider. -/
theorem c5_counterexample :
    pplxUnconfiguredEnv.pplxConfigured = false ∧
      (analyzeAudioC pplxUnconfiguredEnv [] (some sampleFile)).2.success = true ∧
      (analyzeAudioC pplxUnconfiguredEnv [] (some sampleFile)).2.detailedAnalysis
        = none := by
  exact ⟨by decide, by decide, by decide⟩

/-- Claim C5 (amended): enrichment failures never abort a variant C
request — once transcription returned a transcript the response is
emitted with `success=true` and each provider's slot filled from its
attempt — and no network call is made for an unconfigured provider.  The
emotion slot receives the tagged `{error: <message>}` placeholder both
when unconfigured and on a remote failure; the generative slot receives
the tag only when configured and failing, and is left `null` (not an
error tag) when unconfigured.  Variant A substitutes canned simulated
data instead of error tags. -/
theorem c5_enrichment_degradation_amended :
    (∀ env : Env, env.hfConfigured = false →
      huggingAttemptC env
        = ([], EmotionsSlot.errorTag "Hugging Face not configured")) ∧
    (∀ env : Env, env.pplxConfigured = false →
      perplexityAttemptC env = ([], none)) ∧
    (∀ (env : Env) (m : String), env.hfConfigured = true →
      env.hfResult = Except.error m →
      huggingAttemptC env = ([Call.hugging], EmotionsSlot.errorTag m)) ∧
    (∀ (env : Env) (m : String), env.pplxConfigured = true →
      env.pplxResult = Except.error m →
      perplexityAttemptC env
        = ([Call.perplexity], some (DetailedSlot.errorTag m))) ∧
    (∀ env : Env, env.hfConfigured = false →
      huggingAttemptA env = ([], simulateHuggingFaceResults)) ∧
    (∀ (env : Env) (m : String), env.hfConfigured = true →
      env.hfResult = Except.error m →
      huggingAttemptA env = ([Call.hugging], simulateHuggingFaceResults)) ∧
    ∀ (env : Env) (sched : List Bool) (f : AudioFile) (r : AssemblyData)
      (t : String),
      env.aaiConfigured = true →
      (processWithAssemblyAI env.aai).2 = Except.ok r →
      r.text = some t →
      (analyzeAudioC env sched (some f)).2.success = true ∧
        (analyzeAudioC env sched (some f)).2.emotions
          = some (huggingAttemptC env).2 ∧
        (analyzeAudioC env sched (some f)).2.detailedAnalysis
          = (perplexityAttemptC env).2 := by
  refine ⟨?_, ?_, ?_, ?_, ?_, ?_, ?_⟩
  · intro env h
    simp [huggingAttemptC, h]
  · intro env h
    simp [perplexityAttemptC, h]
  · intro env m h hr
    simp [huggingAttemptC, h, hr]
  · intro env m h hr
    simp [perplexityAttemptC, h, hr]
  · intro env h
    simp [huggingAttemptA, h]
  · intro env m h hr
    simp [huggingAttemptA, h, hr]
  · intro env sched f r t htrue har htext
    have hcfg : ¬env.aaiConfigured = false := by simp [htrue]
    obtain ⟨w, hw⟩ := calculateWPM_some_ok t r.audio_duration
    simp only [analyzeAudioC]
    rw [if_neg hcfg, har]
    dsimp only
    rw [htext, hw]
    exact ⟨rfl, rfl, rfl⟩

set_option maxRecDepth 8000 in
/-- Witness for C5 (amended): each conjunct at a concrete environment. -/
theorem c5_enrichment_degradation_amended_witness :
    huggingAttemptC unconfiguredEnvA
        = ([], EmotionsSlot.errorTag "Hugging Face not configured") ∧
      perplexityAttemptC pplxUnconfiguredEnv = ([], none) ∧
      huggingAttemptC { aaiConfigured := true, hfConfigured := true, pplxConfigured := true, aai := completedAAIEnv, hfResult := Except.error "model loading", pplxResult := Except.error "remote timeout" }
        = ([Call.hugging], EmotionsSlot.errorTag "model loading") ∧
      perplexityAttemptC { aaiConfigured := true, hfConfigured := true, pplxConfigured := true, aai := completedAAIEnv, hfResult := Except.error "model loading", pplxResult := Except.error "remote timeout" }
        = ([Call.perplexity], some (DetailedSlot.errorTag "remote timeout")) ∧
      huggingAttemptA unconfiguredEnvA = ([], simulateHuggingFaceResults) ∧
      huggingAttemptA { aaiConfigured := true, hfConfigured := true, pplxConfigured := true, aai := completedAAIEnv, hfResult := Except.error "model loading", pplxResult := Except.error "remote timeout" }
        = ([Call.hugging], simulateHuggingFaceResults) ∧
      (analyzeAudioC pplxUnconfiguredEnv [] (some sampleFile)).2.success = true ∧
      (analyzeAudioC pplxUnconfiguredEnv [] (some sampleFile)).2.emotions
        = some (huggingAttemptC pplxUnconfiguredEnv).2 ∧
      (analyzeAudioC pplxUnconfiguredEnv [] (some sampleFile)).2.detailedAnalysis
        = (perplexityAttemptC pplxUnconfiguredEnv).2 := by
  refine ⟨c5_enrichment_degradation_amended.1 unconfiguredEnvA rfl,
    c5_enrichment_degradation_amended.2.1 pplxUnconfiguredEnv rfl,
    c5_enrichment_degradation_amended.2.2.1 _ "model loading" rfl rfl,
    c5_enrichment_degradation_amended.2.2.2.1 _ "remote timeout" rfl rfl,
    c5_enrichment_degradation_amended.2.2.2.2.1 unconfiguredEnvA rfl,
    c5_enrichment_degradation_amended.2.2.2.2.2.1 _ "model loading" rfl rfl,
    ?_⟩
  exact c5_enrichment_degradation_amended.2.2.2.2.2.2 pplxUnconfiguredEnv []
    sampleFile { status := some "completed", text := some "hello world", confidence := some 0.9, audio_duration := some 30 }
    "hello world" rfl (by decide) rfl

/-- Witness for C6: the ordering property at concrete environments. -/
theorem c6_ordering_witness :
    generativeAfterTranscriptionC pplxUnconfiguredEnv [] (some sampleFile) ∧
      enrichAfterTranscriptionD uploadFailEnvD (some sampleFile) :=
  c6_ordering pplxUnconfiguredEnv [] (some sampleFile) uploadFailEnvD
    (some sampleFile)

/-- Witness for C7: concrete environments answering a missing payload. -/
theorem c7_missing_input_witness :
    analyzeAudioA uploadFailEnv none = ([], noAudioResponseA) ∧
      analyzeAudioD uploadFailEnvD none = ([], noAudioResponseD) :=
  c7_missing_input uploadFailEnv uploadFailEnvD
